import Mathlib

/-
Verification of the `cleanupCveFix.js` maintenance script.

The script is modelled as pure Lean functions over an explicit environment:
the Node.js version string and an oracle `exec : String → Except Unit String`
standing for synchronous external command execution (`execSync`), where
`Except.error ()` models a thrown error and `Except.ok out` models the raw
command output.  Side effects (which external commands were invoked, which
instances `fixInstance` was called on, the final `process.exit` code) are
made observable as explicit traces in the result.
-/

namespace Cleanup

/-- Model of JS `String.prototype.split` with a one-character separator:
`''.split(sep)` is `['']`, separators delimit (possibly empty) groups. -/
def splitOnChar (sep : Char) : List Char → List (List Char)
  | [] => [[]]
  | c :: rest =>
    if c = sep then [] :: splitOnChar sep rest
    else
      match splitOnChar sep rest with
      | [] => [[c]]
      | g :: gs => (c :: g) :: gs

/-- `s.split(sep)` on strings. -/
def splitString (sep : Char) (s : String) : List String :=
  (splitOnChar sep s.data).map fun g => String.mk g

/-- Model of JS `String.prototype.trim`: strip whitespace on both ends. -/
def jsTrim (s : String) : String :=
  String.mk (((s.data.dropWhile Char.isWhitespace).reverse.dropWhile Char.isWhitespace).reverse)

/-- Model of JS `String.prototype.substring(k)`: drop the first `k` characters. -/
def jsSubstring (k : Nat) (s : String) : String :=
  String.mk (s.data.drop k)

/-- The maximal run of leading decimal digits. -/
def leadingDigits (cs : List Char) : List Char :=
  cs.takeWhile Char.isDigit

/-- Value of a (digit-only) character run read in base 10. -/
def digitsToNat (ds : List Char) : Nat :=
  ds.foldl (fun acc c => acc * 10 + (c.toNat - 48)) 0

/-- Parse a maximal leading digit run; `none` when there is no leading digit. -/
def parseDigits (cs : List Char) : Option Nat :=
  match leadingDigits cs with
  | [] => none
  | ds => some (digitsToNat ds)

/-- Model of JS `parseInt(s, 10)`: skip leading whitespace, allow one sign,
then read the maximal digit run; `none` models the `NaN` result. -/
def parseIntJS (s : String) : Option Int :=
  match s.data.dropWhile Char.isWhitespace with
  | '-' :: rest => (parseDigits rest).map fun n => -(n : Int)
  | '+' :: rest => (parseDigits rest).map fun n => (n : Int)
  | cs => (parseDigits cs).map fun n => (n : Int)

/-- `getNodeVersion` from the script: `parseInt(version.split('.')[0].substring(1), 10)`;
`none` models the `NaN` result. -/
def getNodeVersion (version : String) : Option Int :=
  parseIntJS (jsSubstring 1 ((splitString '.' version).headD ""))

/-- JS `<` where the left operand may be `NaN` (modelled by `none`):
any comparison with `NaN` is false. -/
def jsLt (x : Option Int) (y : Int) : Bool :=
  match x with
  | none => false
  | some v => decide (v < y)

/-- `executeCommand` from the script: run the command through the oracle and
trim the output; a thrown error is re-thrown. -/
def executeCommand (exec : String → Except Unit String) (command : String) :
    Except Unit String :=
  match exec command with
  | .ok output => .ok (jsTrim output)
  | .error e => .error e

/-- The inventory command executed by `getEusecInstances`. -/
def listCmd : String := "iob object list system.adapter.eusec.*"

/-- The literal part of the regex `/system\.adapter\.eusec\.(\d+)/`. -/
def eusecPat : List Char := "system.adapter.eusec.".data

/-- Try to match the regex at the start of `cs`: the literal pattern followed by
at least one digit; on success return the (greedy) captured digit run. -/
def matchAt (cs : List Char) : Option (List Char) :=
  if eusecPat.isPrefixOf cs then
    match leadingDigits (cs.drop eusecPat.length) with
    | [] => none
    | ds => some ds
  else none

/-- `line.match(/system\.adapter\.eusec\.(\d+)/)` followed by `parseInt` of the
capture: the leftmost position where the whole pattern matches wins. -/
def findEusec : List Char → Option Nat
  | [] => none
  | c :: cs =>
    match matchAt (c :: cs) with
    | some ds => some (digitsToNat ds)
    | none => findEusec cs

/-- The per-line extraction step of `getEusecInstances`. -/
def lineMatch (line : String) : Option Nat :=
  findEusec line.data

/-- The `for (const line of lines)` accumulation loop of `getEusecInstances`:
push each matched number unless it is already present. -/
def collectInstances : List String → List Nat → List Nat
  | [], instances => instances
  | line :: rest, instances =>
    match lineMatch line with
    | some n => collectInstances rest (if n ∈ instances then instances else instances ++ [n])
    | none => collectInstances rest instances

/-- `getEusecInstances` from the script: list objects, split the trimmed output
into lines, extract and deduplicate instance numbers; on a thrown error
return the empty list. -/
def getEusecInstances (exec : String → Except Unit String) : List Nat :=
  match executeCommand exec listCmd with
  | .ok output => collectInstances (splitString '\n' output) []
  | .error _ => []

/-- The object id addressed for instance `n`. -/
def objectId (n : Nat) : String :=
  "system.adapter.eusec." ++ toString n

/-- The mutation command executed by `fixInstance n`. -/
def setCmd (n : Nat) : String :=
  "iob object set " ++ objectId n ++ " common.nodeProcessParams=[]"

/-- `fixInstance` from the script: execute the single mutation command and
re-throw its error.  The second component is the trace of external commands
this call invoked. -/
def fixInstance (exec : String → Except Unit String) (n : Nat) :
    Except Unit Unit × List String :=
  match executeCommand exec (setCmd n) with
  | .ok _ => (Except.ok (), [setCmd n])
  | .error e => (Except.error e, [setCmd n])

/-- The script's environment: the reported version string and the external
command oracle. -/
structure Env where
  version : String
  exec : String → Except Unit String

/-- Observable outcome of a run of `main`: the `process.exit` code, every
external command invoked (in order), and every instance `fixInstance` was
called on (in order). -/
structure RunResult where
  exitCode : Nat
  execTrace : List String
  fixCalls : List Nat

/-- State of the per-instance loop in `main`: the two counters plus the
observability traces. -/
structure LoopState where
  successCount : Nat
  failCount : Nat
  execTrace : List String
  fixCalls : List Nat

/-- The `for (const instanceNumber of instances)` loop of `main`: call
`fixInstance` on each instance, counting a success or a failure, never
aborting early. -/
def fixLoop (exec : String → Except Unit String) : List Nat → LoopState → LoopState
  | [], st => st
  | n :: rest, st =>
    match fixInstance exec n with
    | (Except.ok _, tr) =>
        fixLoop exec rest ⟨st.successCount + 1, st.failCount, st.execTrace ++ tr, st.fixCalls ++ [n]⟩
    | (Except.error _, tr) =>
        fixLoop exec rest ⟨st.successCount, st.failCount + 1, st.execTrace ++ tr, st.fixCalls ++ [n]⟩

/-- `main` from the script: version gate, instance discovery, per-instance fix
loop, exit code 1 exactly when some instance failed. -/
def main (env : Env) : RunResult :=
  if jsLt (getNodeVersion env.version) 22 then
    ⟨0, [], []⟩
  else
    let instances := getEusecInstances env.exec
    if instances.length = 0 then
      ⟨0, [listCmd], []⟩
    else
      let st := fixLoop env.exec instances ⟨0, 0, [listCmd], []⟩
      if st.failCount > 0 then ⟨1, st.execTrace, st.fixCalls⟩
      else ⟨0, st.execTrace, st.fixCalls⟩

/-- Whether an oracle result models a thrown error. -/
def isErr : Except Unit String → Bool
  | Except.error _ => true
  | Except.ok _ => false

end Cleanup

namespace Cleanup

/-! ### Helper lemmas about the per-instance loop -/

lemma fixInstance_of_ok {exec : String → Except Unit String} {n : Nat} {o : String}
    (h : exec (setCmd n) = .ok o) :
    fixInstance exec n = (Except.ok (), [setCmd n]) := by
  simp [fixInstance, executeCommand, h]

lemma fixInstance_of_error {exec : String → Except Unit String} {n : Nat}
    (h : exec (setCmd n) = .error ()) :
    fixInstance exec n = (Except.error (), [setCmd n]) := by
  simp [fixInstance, executeCommand, h]

lemma fixLoop_fixCalls (exec : String → Except Unit String) (l : List Nat) (st : LoopState) :
    (fixLoop exec l st).fixCalls = st.fixCalls ++ l := by
  induction l generalizing st with
  | nil => simp [fixLoop]
  | cons n rest ih =>
    cases hx : exec (setCmd n) with
    | ok o => rw [fixLoop, fixInstance_of_ok hx, ih]; simp
    | error e => rw [fixLoop, fixInstance_of_error hx, ih]; simp

lemma fixLoop_execTrace (exec : String → Except Unit String) (l : List Nat) (st : LoopState) :
    (fixLoop exec l st).execTrace = st.execTrace ++ l.map setCmd := by
  induction l generalizing st with
  | nil => simp [fixLoop]
  | cons n rest ih =>
    cases hx : exec (setCmd n) with
    | ok o => rw [fixLoop, fixInstance_of_ok hx, ih]; simp
    | error e => rw [fixLoop, fixInstance_of_error hx, ih]; simp

lemma fixLoop_failCount (exec : String → Except Unit String) (l : List Nat) (st : LoopState) :
    (fixLoop exec l st).failCount
      = st.failCount + l.countP (fun n => isErr (exec (setCmd n))) := by
  induction l generalizing st with
  | nil => simp [fixLoop]
  | cons n rest ih =>
    cases hx : exec (setCmd n) with
    | ok o =>
      rw [fixLoop, fixInstance_of_ok hx, ih]
      simp [List.countP_cons, isErr, hx]
    | error e =>
      rw [fixLoop, fixInstance_of_error hx, ih]
      simp [List.countP_cons, isErr, hx]
      omega

lemma fixLoop_successCount (exec : String → Except Unit String) (l : List Nat) (st : LoopState) :
    (fixLoop exec l st).successCount
      = st.successCount + l.countP (fun n => !isErr (exec (setCmd n))) := by
  induction l generalizing st with
  | nil => simp [fixLoop]
  | cons n rest ih =>
    cases hx : exec (setCmd n) with
    | ok o =>
      rw [fixLoop, fixInstance_of_ok hx, ih]
      simp [List.countP_cons, isErr, hx]
      omega
    | error e =>
      rw [fixLoop, fixInstance_of_error hx, ih]
      simp [List.countP_cons, isErr, hx]

/-- The mutation commands are never the inventory command (they differ at
character index 11: a space-delimited `set` versus `list`). -/
lemma setCmd_ne_listCmd (n : Nat) : setCmd n ≠ listCmd := by
  intro h
  have h1 : (setCmd n).data.get? 11 = some 's' := rfl
  have h2 : listCmd.data.get? 11 = some 'l' := rfl
  rw [h, h2] at h1
  exact absurd h1 (by decide)

/-- When the version gate does not fire, `jsLt` is false. -/
lemma jsLt_false_of_ge {v : String} {m : Int} (h1 : getNodeVersion v = some m)
    (h2 : 22 ≤ m) : jsLt (getNodeVersion v) 22 = false := by
  rw [h1]
  simp [jsLt]
  omega

end Cleanup

namespace Cleanup

/-! ### Helper lemmas about instance collection -/

lemma collectInstances_nodup (lines : List String) (acc : List Nat) (h : acc.Nodup) :
    (collectInstances lines acc).Nodup := by
  induction lines generalizing acc with
  | nil => simpa [collectInstances] using h
  | cons line rest ih =>
    rw [collectInstances]
    cases hm : lineMatch line with
    | none => exact ih acc h
    | some n =>
      by_cases hn : n ∈ acc
      · simp only [hn, if_pos]
        exact ih acc h
      · simp only [hn, if_neg, not_false_iff]
        refine ih _ ?_
        simp [List.nodup_append, h, hn]

lemma collectInstances_mem (lines : List String) (acc : List Nat) (n : Nat) :
    n ∈ collectInstances lines acc
      ↔ n ∈ acc ∨ ∃ line ∈ lines, lineMatch line = some n := by
  induction lines generalizing acc with
  | nil => simp [collectInstances]
  | cons line rest ih =>
    rw [collectInstances]
    cases hm : lineMatch line with
    | none =>
      rw [ih]
      simp only [List.mem_cons]
      constructor
      · rintro (h | ⟨l, hl, he⟩)
        · exact Or.inl h
        · exact Or.inr ⟨l, Or.inr hl, he⟩
      · rintro (h | ⟨l, hl | hl, he⟩)
        · exact Or.inl h
        · rw [hl] at he; rw [he] at hm; exact absurd hm (by simp)
        · exact Or.inr ⟨l, hl, he⟩
    | some k =>
      by_cases hk : k ∈ acc
      · simp only [hk, if_pos]
        rw [ih]
        simp only [List.mem_cons]
        constructor
        · rintro (h | ⟨l, hl, he⟩)
          · exact Or.inl h
          · exact Or.inr ⟨l, Or.inr hl, he⟩
        · rintro (h | ⟨l, hl | hl, he⟩)
          · exact Or.inl h
          · rw [hl] at he; rw [he] at hm
            cases hm
            exact Or.inl hk
          · exact Or.inr ⟨l, hl, he⟩
      · simp only [hk, if_neg, not_false_iff]
        rw [ih]
        simp only [List.mem_append, List.mem_cons, List.not_mem_nil, or_false]
        constructor
        · rintro ((h | h) | ⟨l, hl, he⟩)
          · exact Or.inl h
          · exact Or.inr ⟨line, Or.inl rfl, by rw [hm, h]⟩
          · exact Or.inr ⟨l, Or.inr hl, he⟩
        · rintro (h | ⟨l, hl | hl, he⟩)
          · exact Or.inl (Or.inl h)
          · rw [hl] at he; rw [he] at hm
            cases hm
            exact Or.inl (Or.inr rfl)
          · exact Or.inr ⟨l, hl, he⟩

end Cleanup

namespace Cleanup

/-- Claim C1: for every reported platform major version strictly less than 22,
`main` exits with status 0, never calls `fixInstance`, and executes no
`iob object set` command. -/
theorem versionBelowThreshold_noMutation (env : Env) (m : Int)
    (h1 : getNodeVersion env.version = some m) (h2 : m < 22) :
    (main env).exitCode = 0 ∧ (main env).fixCalls = [] ∧
      ∀ n : Nat, setCmd n ∉ (main env).execTrace := by
  have hlt : jsLt (getNodeVersion env.version) 22 = true := by
    rw [h1]
    simpa [jsLt] using h2
  simp [main, hlt]

/-- Witness for C1 at reported version `v18.20.4`. -/
theorem versionBelowThreshold_noMutationW :
    (main ⟨"v18.20.4", fun _ => .ok ""⟩).exitCode = 0 ∧
      (main ⟨"v18.20.4", fun _ => .ok ""⟩).fixCalls = [] ∧
      ∀ n : Nat, setCmd n ∉ (main ⟨"v18.20.4", fun _ => .ok ""⟩).execTrace :=
  versionBelowThreshold_noMutation ⟨"v18.20.4", fun _ => .ok ""⟩ 18 (by decide) (by decide)

/-- Claim C7: `fixInstance n` invokes exactly one external command, namely the
mutation command that addresses the object id `system.adapter.eusec.<n>` and
assigns `common.nodeProcessParams=[]`. -/
theorem fixInstance_singleSetCommand (exec : String → Except Unit String) (n : Nat) :
    (fixInstance exec n).2.length = 1 ∧
    (fixInstance exec n).2 = ["iob object set " ++ objectId n ++ " common.nodeProcessParams=[]"] ∧
    objectId n = "system.adapter.eusec." ++ toString n := by
  have htr : (fixInstance exec n).2 = [setCmd n] := by
    cases hx : exec (setCmd n) with
    | ok o => rw [fixInstance_of_ok hx]
    | error e => cases e; rw [fixInstance_of_error hx]
  rw [htr]
  exact ⟨rfl, rfl, rfl⟩

/-- Claim C8: each line of the inventory output contributes at most one
instance number, and only the first `system.adapter.eusec.<digits>` substring
of a line is used — a second identifier on the same line is dropped. -/
theorem oneMatchPerLine :
    (∀ line : String, (collectInstances [line] []).length ≤ 1) ∧
    lineMatch "system.adapter.eusec.3 system.adapter.eusec.7" = some 3 ∧
    collectInstances ["system.adapter.eusec.3 system.adapter.eusec.7"] [] = [3] := by
  refine ⟨?_, by decide, by decide⟩
  intro line
  cases hm : lineMatch line with
  | none => simp [collectInstances, hm]
  | some n => simp [collectInstances, hm]

lemma fixLoop_counts (exec : String → Except Unit String) (l : List Nat) (st : LoopState) :
    (fixLoop exec l st).successCount + (fixLoop exec l st).failCount
      = st.successCount + st.failCount + l.length := by
  induction l generalizing st with
  | nil => simp [fixLoop]
  | cons n rest ih =>
    cases hx : exec (setCmd n) with
    | ok o =>
      rw [fixLoop, fixInstance_of_ok hx, ih]
      simp
      omega
    | error e =>
      rw [fixLoop, fixInstance_of_error hx, ih]
      simp
      omega

/-- Claim C10: after the per-instance loop of `main` (started on the state
`main` uses), `successCount + failCount` equals the number of discovered
instances. -/
theorem counts_partition_instances (exec : String → Except Unit String)
    (instances : List Nat) :
    (fixLoop exec instances ⟨0, 0, [listCmd], []⟩).successCount
      + (fixLoop exec instances ⟨0, 0, [listCmd], []⟩).failCount
      = instances.length := by
  rw [fixLoop_counts]
  simp

end Cleanup

namespace Cleanup

/-- Claim C3: `getEusecInstances` returns each instance number at most once,
and a number appears in the result exactly when some line of the (trimmed,
newline-split) inventory output matches `system.adapter.eusec.<digits>` with
that number — non-matching lines contribute nothing. -/
theorem instances_dedup_and_ignore (exec : String → Except Unit String) (out : String)
    (h : exec listCmd = .ok out) :
    (getEusecInstances exec).Nodup ∧
    ∀ n : Nat, n ∈ getEusecInstances exec
      ↔ ∃ line ∈ splitString '\n' (jsTrim out), lineMatch line = some n := by
  have hg : getEusecInstances exec = collectInstances (splitString '\n' (jsTrim out)) [] := by
    simp [getEusecInstances, executeCommand, h]
  rw [hg]
  refine ⟨collectInstances_nodup _ _ (by simp), fun n => ?_⟩
  rw [collectInstances_mem]
  simp

/-- The inventory output used by the witness for C3: a junk line, the same
instance twice, and a final non-matching line. -/
def invOutC3 : String :=
  "junk\nsystem.adapter.eusec.4 x\nsystem.adapter.eusec.4\nnope"

/-- The command oracle used by the witness for C3. -/
def execC3 : String → Except Unit String :=
  fun c => if c = listCmd then .ok invOutC3 else .ok ""

/-- Witness for C3 on an output with a duplicate and non-matching lines. -/
theorem instances_dedup_and_ignoreW :
    (getEusecInstances execC3).Nodup ∧
    ∀ n : Nat, n ∈ getEusecInstances execC3
      ↔ ∃ line ∈ splitString '\n' (jsTrim invOutC3), lineMatch line = some n :=
  instances_dedup_and_ignore execC3 invOutC3 (by rfl)

/-- Claim C4: when the inventory command throws, `getEusecInstances` returns
the empty list and `main` exits 0 without calling `fixInstance` or executing
any mutation command. -/
theorem inventoryError_nonFatal (env : Env) (h : env.exec listCmd = .error ()) :
    getEusecInstances env.exec = [] ∧ (main env).exitCode = 0 ∧
      (main env).fixCalls = [] ∧ ∀ n : Nat, setCmd n ∉ (main env).execTrace := by
  have hg : getEusecInstances env.exec = [] := by
    simp [getEusecInstances, executeCommand, h]
  refine ⟨hg, ?_⟩
  cases hlt : jsLt (getNodeVersion env.version) 22 with
  | true =>
    have hm : main env = ⟨0, [], []⟩ := by simp [main, hlt]
    rw [hm]
    simp
  | false =>
    have hm : main env = ⟨0, [listCmd], []⟩ := by simp [main, hlt, hg]
    rw [hm]
    refine ⟨rfl, rfl, fun n => ?_⟩
    simp [setCmd_ne_listCmd n]

/-- Witness for C4: an oracle whose inventory command throws. -/
theorem inventoryError_nonFatalW :
    getEusecInstances (Env.mk "v22.1.0" fun _ => .error ()).exec = [] ∧
      (main ⟨"v22.1.0", fun _ => .error ()⟩).exitCode = 0 ∧
      (main ⟨"v22.1.0", fun _ => .error ()⟩).fixCalls = [] ∧
      ∀ n : Nat, setCmd n ∉ (main ⟨"v22.1.0", fun _ => .error ()⟩).execTrace :=
  inventoryError_nonFatal ⟨"v22.1.0", fun _ => .error ()⟩ rfl

/-- Claim C6: with major version at least 22 and no discovered instances,
`main` exits 0 without calling `fixInstance` or executing any mutation
command. -/
theorem noInstances_exitZero (env : Env) (m : Int)
    (h1 : getNodeVersion env.version = some m) (h2 : 22 ≤ m)
    (h3 : getEusecInstances env.exec = []) :
    (main env).exitCode = 0 ∧ (main env).fixCalls = [] ∧
      ∀ n : Nat, setCmd n ∉ (main env).execTrace := by
  have hlt := jsLt_false_of_ge h1 h2
  have hm : main env = ⟨0, [listCmd], []⟩ := by simp [main, hlt, h3]
  rw [hm]
  exact ⟨rfl, rfl, fun n => by simp [setCmd_ne_listCmd n]⟩

/-- Witness for C6: version `v22.0.0` and an inventory output with no match. -/
theorem noInstances_exitZeroW :
    (main ⟨"v22.0.0", fun _ => .ok "nothing here"⟩).exitCode = 0 ∧
      (main ⟨"v22.0.0", fun _ => .ok "nothing here"⟩).fixCalls = [] ∧
      ∀ n : Nat, setCmd n ∉ (main ⟨"v22.0.0", fun _ => .ok "nothing here"⟩).execTrace :=
  noInstances_exitZero ⟨"v22.0.0", fun _ => .ok "nothing here"⟩ 22 (by decide) (by decide) (by rfl)

end Cleanup

namespace Cleanup

/-- When the version gate does not fire, the external-command trace of `main`
is the inventory command followed by one mutation command per discovered
instance, in order. -/
lemma main_trace_proceed (env : Env)
    (hlt : jsLt (getNodeVersion env.version) 22 = false) :
    (main env).execTrace = [listCmd] ++ (getEusecInstances env.exec).map setCmd := by
  unfold main
  simp only [hlt, Bool.false_eq_true, if_false]
  split
  · next hlen =>
    rw [List.length_eq_zero.mp hlen]
    rfl
  · next hlen =>
    split <;> simp [fixLoop_execTrace]

/-- When the version gate does not fire, `fixInstance` is called exactly on
the discovered instances, in order. -/
lemma main_fixCalls_proceed (env : Env)
    (hlt : jsLt (getNodeVersion env.version) 22 = false) :
    (main env).fixCalls = getEusecInstances env.exec := by
  unfold main
  simp only [hlt, Bool.false_eq_true, if_false]
  split
  · next hlen =>
    rw [List.length_eq_zero.mp hlen]
  · next hlen =>
    split <;> simp [fixLoop_fixCalls]

/-- When the version gate does not fire and some instance was discovered, the
exit code is 1 exactly when some mutation command threw. -/
lemma main_exitCode_proceed (env : Env)
    (hlt : jsLt (getNodeVersion env.version) 22 = false)
    (h3 : getEusecInstances env.exec ≠ []) :
    (main env).exitCode
      = if 0 < (getEusecInstances env.exec).countP (fun n => isErr (env.exec (setCmd n)))
        then 1 else 0 := by
  have hlen : ¬ (getEusecInstances env.exec).length = 0 := by
    simpa [List.length_eq_zero] using h3
  unfold main
  simp only [hlt, Bool.false_eq_true, if_false, hlen]
  have hfc : (fixLoop env.exec (getEusecInstances env.exec) ⟨0, 0, [listCmd], []⟩).failCount
      = (getEusecInstances env.exec).countP (fun n => isErr (env.exec (setCmd n))) := by
    rw [fixLoop_failCount]
    simp
  split
  · next h =>
    rw [hfc] at h
    rw [if_pos h]
  · next h =>
    rw [hfc] at h
    rw [if_neg h]

end Cleanup

namespace Cleanup

/-- Claim C2: with major version at least 22 and a non-empty instance list,
every discovered instance is attempted even when some mutation throws, and
the exit code is 1 exactly when at least one mutation threw (0 exactly when
none did). -/
theorem mutationFailures_continueAndExitOne (env : Env) (m : Int)
    (h1 : getNodeVersion env.version = some m) (h2 : 22 ≤ m)
    (h3 : getEusecInstances env.exec ≠ []) :
    (main env).fixCalls = getEusecInstances env.exec ∧
    ((main env).exitCode = 1
      ↔ ∃ n ∈ getEusecInstances env.exec, isErr (env.exec (setCmd n)) = true) ∧
    ((main env).exitCode = 0
      ↔ ∀ n ∈ getEusecInstances env.exec, isErr (env.exec (setCmd n)) = false) := by
  have hlt := jsLt_false_of_ge h1 h2
  refine ⟨main_fixCalls_proceed env hlt, ?_, ?_⟩
  · rw [main_exitCode_proceed env hlt h3]
    by_cases hp : 0 < (getEusecInstances env.exec).countP (fun n => isErr (env.exec (setCmd n)))
    · rw [if_pos hp]
      exact ⟨fun _ => List.countP_pos_iff.mp hp, fun _ => rfl⟩
    · rw [if_neg hp]
      constructor
      · intro h
        exact absurd h (by omega)
      · rintro ⟨n, hn, he⟩
        exact absurd (List.countP_pos_iff.mpr ⟨n, hn, he⟩) hp
  · rw [main_exitCode_proceed env hlt h3]
    by_cases hp : 0 < (getEusecInstances env.exec).countP (fun n => isErr (env.exec (setCmd n)))
    · rw [if_pos hp]
      constructor
      · intro h
        exact absurd h (by omega)
      · intro hall
        obtain ⟨n, hn, he⟩ := List.countP_pos_iff.mp hp
        rw [hall n hn] at he
        cases he
    · rw [if_neg hp]
      constructor
      · intro _ n hn
        have hz : (getEusecInstances env.exec).countP
            (fun n => isErr (env.exec (setCmd n))) = 0 := by omega
        have := List.countP_eq_zero.mp hz n hn
        simpa using this
      · intro _
        rfl

/-- The command oracle used by the witness for C2: two instances, the first
mutation throws, the second succeeds. -/
def execW2 : String → Except Unit String :=
  fun c =>
    if c = listCmd then .ok "system.adapter.eusec.0\nsystem.adapter.eusec.1"
    else if c = setCmd 0 then .error ()
    else .ok ""

/-- Witness for C2: version `v22.0.0`, instances 0 and 1, mutation 0 throws. -/
theorem mutationFailures_continueAndExitOneW :
    (main ⟨"v22.0.0", execW2⟩).fixCalls = getEusecInstances execW2 ∧
    ((main ⟨"v22.0.0", execW2⟩).exitCode = 1
      ↔ ∃ n ∈ getEusecInstances execW2, isErr (execW2 (setCmd n)) = true) ∧
    ((main ⟨"v22.0.0", execW2⟩).exitCode = 0
      ↔ ∀ n ∈ getEusecInstances execW2, isErr (execW2 (setCmd n)) = false) :=
  mutationFailures_continueAndExitOne ⟨"v22.0.0", execW2⟩ 22 (by rfl) (by decide) (by decide)

/-- Claim C5: with major version at least 22 and instances `[0, 2]`, `main`
calls `fixInstance` exactly twice — once per identifier — so the external
trace is the inventory command followed by the two mutation commands, and the
exit code is 0 when both mutations succeed. -/
theorem twoInstances_twoMutations (env : Env) (m : Int)
    (h1 : getNodeVersion env.version = some m) (h2 : 22 ≤ m)
    (h3 : getEusecInstances env.exec = [0, 2]) :
    (main env).fixCalls = [0, 2] ∧
    (main env).execTrace = [listCmd, setCmd 0, setCmd 2] ∧
    (isErr (env.exec (setCmd 0)) = false → isErr (env.exec (setCmd 2)) = false →
      (main env).exitCode = 0) := by
  have hlt := jsLt_false_of_ge h1 h2
  refine ⟨by rw [main_fixCalls_proceed env hlt, h3], ?_, ?_⟩
  · rw [main_trace_proceed env hlt, h3]
    rfl
  · intro he0 he2
    rw [main_exitCode_proceed env hlt (by rw [h3]; simp)]
    rw [h3]
    simp [List.countP_cons, he0, he2]

/-- The command oracle used by the witness for C5: instances 0 and 2, every
mutation succeeds. -/
def execW5 : String → Except Unit String :=
  fun c =>
    if c = listCmd then .ok "system.adapter.eusec.0\nsystem.adapter.eusec.2"
    else .ok ""

/-- Witness for C5: version `v22.0.0` with instances 0 and 2 discovered. -/
theorem twoInstances_twoMutationsW :
    (main ⟨"v22.0.0", execW5⟩).fixCalls = [0, 2] ∧
    (main ⟨"v22.0.0", execW5⟩).execTrace = [listCmd, setCmd 0, setCmd 2] ∧
    (isErr (execW5 (setCmd 0)) = false → isErr (execW5 (setCmd 2)) = false →
      (main ⟨"v22.0.0", execW5⟩).exitCode = 0) :=
  twoInstances_twoMutations ⟨"v22.0.0", execW5⟩ 22 (by rfl) (by decide) (by decide)

/-- Claim C9: when the first dot-separated segment of the version string has
no parsable integer after its leading character, `getNodeVersion` is `NaN`
(modelled by `none`), the gate `nodeVersion < 22` is false, and `main` skips
the early exit and proceeds with the fix (it invokes the inventory command). -/
theorem unparsableVersion_failsOpen (env : Env)
    (h : parseIntJS (jsSubstring 1 ((splitString '.' env.version).headD "")) = none) :
    getNodeVersion env.version = none ∧
    jsLt (getNodeVersion env.version) 22 = false ∧
    listCmd ∈ (main env).execTrace := by
  have hg : getNodeVersion env.version = none := h
  have hlt : jsLt (getNodeVersion env.version) 22 = false := by
    rw [hg]
    rfl
  refine ⟨hg, hlt, ?_⟩
  rw [main_trace_proceed env hlt]
  simp

/-- Witness for C9 at the unparsable version string `vNaN.1.0`. -/
theorem unparsableVersion_failsOpenW :
    getNodeVersion (Env.mk "vNaN.1.0" fun _ => .ok "").version = none ∧
    jsLt (getNodeVersion (Env.mk "vNaN.1.0" fun _ => .ok "").version) 22 = false ∧
    listCmd ∈ (main ⟨"vNaN.1.0", fun _ => .ok ""⟩).execTrace :=
  unparsableVersion_failsOpen ⟨"vNaN.1.0", fun _ => .ok ""⟩ (by rfl)

end Cleanup
